import Mathlib

/-!
Shallow embedding of the `llm_integration` repository (two Python files:
`tools.py` and `python-version/tools.py`).  The external `requests` and
`json` libraries are modelled abstractly: an HTTP environment maps a URL to
a transport outcome, and a JSON parse oracle maps a body string to an
optional JSON value.  Python exceptions are modelled with `Except Unit`;
the Python value `None` is modelled as `Json.null` (faithful to Python,
where `json.loads "null"` and an implicit fall-through both yield `None`).
JSON numbers are modelled as integers (the fields the code touches,
`TOTAL_SALES`, are numeric).
-/

/-- JSON values as deserialized by Python's `json` module: objects are
key/value association lists, numbers are modelled as integers. -/
inductive Json where
  | null : Json
  | bool (b : Bool) : Json
  | num (n : Int) : Json
  | str (s : String) : Json
  | arr (elems : List Json) : Json
  | obj (fields : List (String × Json)) : Json

/-- Outcome of an HTTP GET as seen by the calling code: either the request
raised (`requests.RequestException`: network error, or — where
`raise_for_status()` is called — an HTTP error status), or a response body
text was obtained. -/
inductive FetchOutcome where
  | requestError : FetchOutcome
  | body (text : String) : FetchOutcome

/-- An HTTP environment: what each GET request returns in this run. -/
def HttpEnv : Type := String → FetchOutcome

/-- A JSON parse oracle, modelling `response.json()` / `json.loads`:
`none` when parsing raises `ValueError`. -/
def ParseOracle : Type := String → Option Json

namespace Tools

/-- Model of `get_distributor_data` from `tools.py`: returns the hardcoded sample
distributor id list. -/
def get_distributor_data : List Int :=
  let sample_distributor_ids : List Int := [10001520, 10001519, 10001507, 10001515]
  sample_distributor_ids

/-- The URL built by the f-string
`f"https://suprsales.in:5032/suprsales_api/Dashboard/topDistributor?id={distributor_id}"`. -/
def topDistributorUrl (distributor_id : Int) : String :=
  "https://suprsales.in:5032/suprsales_api/Dashboard/topDistributor?id=" ++
    toString distributor_id

/-- Model of `get_customer_data` from `tools.py`: GET the topDistributor URL and
return `response.json()`.  No exception handling: a request exception or a
JSON decode error propagates (`Except.error`). -/
def get_customer_data (http : HttpEnv) (parse : ParseOracle)
    (distributor_id : Int) : Except Unit Json :=
  match http (topDistributorUrl distributor_id) with
  | .requestError => .error ()
  | .body text =>
    match parse text with
    | some j => .ok j
    | none => .error ()

end Tools

namespace PythonVersion

/-- The employee endpoint URL from `python-version/tools.py`. -/
def employeeUrl : String :=
  "https://suprsales.in:5032/suprsales_api/Dashboard/employee"

/-- Python iteration `for x in payload`: lists yield their elements, dicts
their keys, strings their characters; other values raise `TypeError`. -/
def pyIter : Json → Except Unit (List Json)
  | .arr xs => .ok xs
  | .obj fs => .ok (fs.map fun p => .str p.1)
  | .str s => .ok (s.toList.map fun c => .str c.toString)
  | _ => .error ()

/-- The comprehension
`[x['EMP_ID'] for x in payload if isinstance(x, dict) and 'EMP_ID' in x]`
restricted to the element test and projection. -/
def empIdProjection (xs : List Json) : List Json :=
  xs.filterMap fun x =>
    match x with
    | .obj fs => fs.lookup "EMP_ID"
    | _ => none

/-- The tail of `get_employee_data` after a successful parse: the
`if data == "all" / elif data == "id"` dispatch; any other value of `data`
reaches no `return` and Python yields `None` (`Json.null`). -/
def employeeDispatch (data : String) (payload : Json) : Except Unit Json :=
  if data = "all" then .ok payload
  else if data = "id" then
    match pyIter payload with
    | .ok xs => .ok (.arr (empIdProjection xs))
    | .error e => .error e
  else .ok Json.null

/-- Model of `get_employee_data` from `python-version/tools.py`.  The `try` around
`requests.get`/`raise_for_status` catches `RequestException`
(`FetchOutcome.requestError`) and returns `[]`; a failed `response.json()`
falls back to `json.loads(response.text.strip())`, returning `[]` when the
stripped body is empty or the second parse also fails. -/
def get_employee_data (http : HttpEnv) (parse : ParseOracle)
    (data : String := "all") : Except Unit Json :=
  match http employeeUrl with
  | .requestError => .ok (.arr [])
  | .body text =>
    match parse text with
    | some payload => employeeDispatch data payload
    | none =>
      let t := text.trim
      if t = "" then .ok (.arr [])
      else
        match parse t with
        | some payload => employeeDispatch data payload
        | none => .ok (.arr [])

/-- Model of `get_distributor_data` from `python-version/tools.py` (verbatim copy of
the one in `tools.py`). -/
def get_distributor_data : List Int :=
  let sample_distributor_ids : List Int := [10001520, 10001519, 10001507, 10001515]
  sample_distributor_ids

/-- The sort key `lambda x: x['TOTAL_SALES']`: defined when the record is a
dict carrying a numeric `TOTAL_SALES`; `none` models the raising cases
(non-dict element, missing key, non-numeric key value). -/
def recKey : Json → Option Int
  | .obj fs =>
    match fs.lookup "TOTAL_SALES" with
    | some (.num n) => some n
    | _ => none
  | _ => none

/-- Python `list.sort(key=f)` first computes the key of every element (left to
right), raising if any key computation fails. -/
def decorate : List Json → Option (List (Int × Json))
  | [] => some []
  | x :: xs =>
    match recKey x, decorate xs with
    | some k, some ps => some ((k, x) :: ps)
    | _, _ => none

/-- Comparison of decorated elements by their `TOTAL_SALES` key. -/
def keyLe (p q : Int × Json) : Prop := p.1 ≤ q.1

instance : DecidableRel keyLe := fun p q => Int.decLe p.1 q.1

instance : IsTotal (Int × Json) keyLe := ⟨fun p q => Int.le_total p.1 q.1⟩

instance : IsTrans (Int × Json) keyLe := ⟨fun _ _ _ => Int.le_trans⟩

instance : IsRefl (Int × Json) keyLe := ⟨fun p => Int.le_refl p.1⟩

/-- The in-place sort `response.sort(key=lambda x: x['TOTAL_SALES'])`: Python's `list.sort`
is a stable ascending sort by the computed keys; modelled as a stable
insertion sort on the decorated list.  `none` models the raising cases of
the key computation. -/
def sort_by_total_sales (xs : List Json) : Option (List Json) :=
  match decorate xs with
  | none => none
  | some ps => some ((ps.insertionSort keyLe).map Prod.snd)

/-- Model of `get_distributor_performance` from `python-version/tools.py`: GET,
parse, `print(response[0])`, sort in place by `TOTAL_SALES`,
`print(response[0])` again, and fall off the end (implicit `None`).
On success the result is `(printed values, return value)`; `Except.error`
models the uncaught exceptions (request error, JSON decode error, the
indexing `response[0]` on an empty or non-list payload, and a failing sort
key). -/
def get_distributor_performance (http : HttpEnv) (parse : ParseOracle)
    (distributor_id : Int) (mode : String) : Except Unit (List Json × Json) :=
  match http (Tools.topDistributorUrl distributor_id) with
  | .requestError => .error ()
  | .body text =>
    match parse text with
    | none => .error ()
    | some payload =>
      match payload with
      | .arr (h :: t) =>
        match sort_by_total_sales (h :: t) with
        | none => .error ()
        | some sorted =>
          match sorted with
          | h2 :: _ => .ok ([h, h2], Json.null)
          | [] => .error ()
      | _ => .error ()

end PythonVersion

/-! ### Concrete fixtures used by witnesses and counterexamples -/

/-- Employee record `{"EMP_ID": "1"}` from the spec's test payload. -/
def empRec1 : Json := .obj [("EMP_ID", .str "1")]

/-- Employee record `{"EMP_ID": "2"}` from the spec's test payload. -/
def empRec2 : Json := .obj [("EMP_ID", .str "2")]

/-- Employee record `{"OTHER": "x"}` (no `EMP_ID`) from the spec's test
payload. -/
def empRecOther : Json := .obj [("OTHER", .str "x")]

/-- The spec's employee test payload
`[{"EMP_ID":"1"},{"EMP_ID":"2"},{"OTHER":"x"}]`. -/
def empPayload : Json := .arr [empRec1, empRec2, empRecOther]

/-- A fixed body string standing for the serialized employee payload. -/
def empBody : String := "empbody"

/-- An HTTP environment that answers every GET with the employee body. -/
def empHttp : HttpEnv := fun _ => .body empBody

/-- A parse oracle that decodes exactly the employee body. -/
def empParse : ParseOracle := fun s => if s = empBody then some empPayload else none

/-- Customer record with `TOTAL_SALES` 50. -/
def custRec50 : Json :=
  .obj [("TOTAL_SALES", .num 50), ("CUSTOMER_ID", .num 1), ("CUSTOMER_NAME", .str "A")]

/-- Customer record with `TOTAL_SALES` 10. -/
def custRec10 : Json :=
  .obj [("TOTAL_SALES", .num 10), ("CUSTOMER_ID", .num 2), ("CUSTOMER_NAME", .str "B")]

/-- The spec's simulated customer payload
`[{"TOTAL_SALES":50,...},{"TOTAL_SALES":10,...}]`. -/
def custPayload : Json := .arr [custRec50, custRec10]

/-- A fixed body string standing for the serialized customer payload. -/
def custBody : String := "custbody"

/-- An HTTP environment that answers every GET with the customer body. -/
def custHttp : HttpEnv := fun _ => .body custBody

/-- A parse oracle that decodes exactly the customer body. -/
def custParse : ParseOracle := fun s => if s = custBody then some custPayload else none

/-- An HTTP environment that answers every GET with the body `"[]"`. -/
def emptyArrHttp : HttpEnv := fun _ => .body "[]"

/-- A parse oracle that decodes `"[]"` to the empty JSON array. -/
def emptyArrParse : ParseOracle := fun s => if s = "[]" then some (.arr []) else none

open PythonVersion

/-- Helper: whenever `get_distributor_performance` terminates normally, its
return value (the second component) is `Json.null` — the function body has
no `return` statement. -/
lemma gdp_ret_eq_null (http : HttpEnv) (parse : ParseOracle) (id : Int)
    (mode : String) (prints : List Json) (ret : Json)
    (h : get_distributor_performance http parse id mode = .ok (prints, ret)) :
    ret = Json.null := by
  unfold get_distributor_performance at h
  split at h
  · exact Except.noConfusion h
  split at h
  · exact Except.noConfusion h
  split at h
  · split at h
    · exact Except.noConfusion h
    split at h
    · obtain ⟨h1, h2⟩ := Prod.mk.injEq .. ▸ (Except.ok.inj h)
      exact h2.symm
    · exact Except.noConfusion h
  · exact Except.noConfusion h

/-- C3: both copies of `get_distributor_data` return exactly the constant
sequence `[10001520, 10001519, 10001507, 10001515]`; in the embedding they
are constants, so the result is independent of any input or environment,
with no I/O and no failure mode. -/
theorem c3_get_distributor_data_constant :
    Tools.get_distributor_data = [10001520, 10001519, 10001507, 10001515] ∧
    PythonVersion.get_distributor_data = [10001520, 10001519, 10001507, 10001515] :=
  ⟨rfl, rfl⟩

/-- C9: the two duplicated `get_distributor_data` definitions are
extensionally equal. -/
theorem c9_get_distributor_data_copies_equal :
    Tools.get_distributor_data = PythonVersion.get_distributor_data :=
  rfl

/-- C2: for `filter` in `{"all", "id"}`, `get_employee_data` returns the
empty sequence whenever the request fails, whenever the body is empty after
stripping, and whenever both the direct parse and the parse of the stripped
body fail. -/
theorem c2_get_employee_data_failure_empty (http : HttpEnv) (parse : ParseOracle)
    (data : String) (hdata : data = "all" ∨ data = "id")
    (hfail : http employeeUrl = .requestError ∨
      ∃ b, http employeeUrl = .body b ∧ parse b = none ∧
        (b.trim = "" ∨ parse b.trim = none)) :
    get_employee_data http parse data = .ok (.arr []) := by
  clear hdata
  unfold get_employee_data
  rcases hfail with h | ⟨b, hb, hpb, hrest⟩
  · rw [h]
  · rw [hb]
    dsimp only
    rw [hpb]
    rcases hrest with ht | hpt
    · simp [ht]
    · by_cases he : b.trim = "" <;> simp [he, hpt]

/-- C2 witness: a simulated transport failure with `filter = "id"` yields
the empty sequence. -/
theorem c2_witness :
    get_employee_data (fun _ => .requestError) (fun _ => none) "id" = .ok (.arr []) :=
  c2_get_employee_data_failure_empty _ _ _ (Or.inr rfl) (Or.inl rfl)

/-- C4: on a successfully parsed array payload, `get_employee_data` with
`filter = "id"` returns the `EMP_ID` values of exactly those elements that
are records containing the key `EMP_ID`, skipping all other elements. -/
theorem c4_get_employee_data_id_projection (http : HttpEnv) (parse : ParseOracle)
    (b : String) (xs : List Json)
    (hb : http employeeUrl = .body b) (hp : parse b = some (.arr xs)) :
    get_employee_data http parse "id" =
      .ok (.arr (xs.filterMap fun x =>
        match x with
        | .obj fs => fs.lookup "EMP_ID"
        | _ => none)) := by
  unfold get_employee_data
  rw [hb]
  dsimp only
  rw [hp]
  dsimp only
  rfl

/-- C4 witness: for the payload
`[{"EMP_ID":"1"},{"EMP_ID":"2"},{"OTHER":"x"}]` the result is `["1","2"]`. -/
theorem c4_witness :
    get_employee_data empHttp empParse "id" = .ok (.arr [.str "1", .str "2"]) :=
  (c4_get_employee_data_id_projection empHttp empParse empBody
    [empRec1, empRec2, empRecOther] rfl rfl).trans rfl

/-- C5: on a successfully parsed array payload, `get_employee_data` with
`filter = "all"` returns the payload unmodified. -/
theorem c5_get_employee_data_all_passthrough (http : HttpEnv) (parse : ParseOracle)
    (b : String) (xs : List Json)
    (hb : http employeeUrl = .body b) (hp : parse b = some (.arr xs)) :
    get_employee_data http parse "all" = .ok (.arr xs) := by
  unfold get_employee_data
  rw [hb]
  dsimp only
  rw [hp]
  dsimp only
  rfl

/-- C5 witness: the three-record employee payload is passed through
unmodified under `filter = "all"`. -/
theorem c5_witness :
    get_employee_data empHttp empParse "all" =
      .ok (.arr [empRec1, empRec2, empRecOther]) :=
  c5_get_employee_data_all_passthrough empHttp empParse empBody
    [empRec1, empRec2, empRecOther] rfl rfl

/-- C7: for any `filter` value other than `"all"` and `"id"`, after a
successful fetch and parse `get_employee_data` reaches no explicit return
and yields Python's implicit `None`. -/
theorem c7_get_employee_data_fallthrough (http : HttpEnv) (parse : ParseOracle)
    (data : String) (b : String) (payload : Json)
    (h1 : data ≠ "all") (h2 : data ≠ "id")
    (hb : http employeeUrl = .body b) (hp : parse b = some payload) :
    get_employee_data http parse data = .ok Json.null := by
  unfold get_employee_data
  rw [hb]
  dsimp only
  rw [hp]
  dsimp only
  unfold employeeDispatch
  rw [if_neg h1, if_neg h2]

/-- C7 witness: `filter = "top"` with a successful fetch and parse yields
`None`. -/
theorem c7_witness :
    get_employee_data empHttp empParse "top" = .ok Json.null :=
  c7_get_employee_data_fallthrough empHttp empParse "top" empBody empPayload
    (by decide) (by decide) rfl rfl

/-- C1 counterexample: the claim says the sorting variant
`get_distributor_performance` also returns the parsed JSON array, but at
this concrete input the call completes normally with return value
`Json.null` (the function body has no `return` statement), which is not the
parsed array. -/
theorem c1_counterexample :
    get_distributor_performance custHttp custParse 10001515 "top" =
      .ok ([custRec50, custRec10], Json.null) ∧
    Json.null ≠ custPayload :=
  ⟨rfl, fun h => Json.noConfusion h⟩

/-- C1 amended: `get_customer_data` parses the response body as JSON and
returns it; `get_distributor_performance` parses, sorts ascending by
`TOTAL_SALES` and prints diagnostics, but returns no value — on normal
completion its return value is `None`, not the array. -/
theorem c1_fetch_customer_data_contract (http : HttpEnv) (parse : ParseOracle)
    (id : Int) (mode : String) (b : String) (payload : Json)
    (hb : http (Tools.topDistributorUrl id) = .body b)
    (hp : parse b = some payload) :
    Tools.get_customer_data http parse id = .ok payload ∧
    ∀ prints ret,
      get_distributor_performance http parse id mode = .ok (prints, ret) →
        ret = Json.null := by
  constructor
  · unfold Tools.get_customer_data
    rw [hb]
    dsimp only
    rw [hp]
  · intro prints ret h
    exact gdp_ret_eq_null http parse id mode prints ret h

/-- C1 witness: at the concrete customer fixture, `get_customer_data`
returns the parsed payload, and the sorting variant's successful run
returns `None`. -/
theorem c1_witness :
    Tools.get_customer_data custHttp custParse 10001515 = .ok custPayload ∧
    Json.null = Json.null :=
  ⟨(c1_fetch_customer_data_contract custHttp custParse 10001515 "top"
      custBody custPayload rfl rfl).1,
   (c1_fetch_customer_data_contract custHttp custParse 10001515 "top"
      custBody custPayload rfl rfl).2 [custRec50, custRec10] Json.null rfl⟩

/-- C6 counterexample: the claim says the customer/distributor operations
raise if and only if the GET or the JSON parse fails, but
`get_distributor_performance` raises on a successful GET and a successful
parse when the payload is the empty array (`response[0]` raises
`IndexError`). -/
theorem c6_counterexample :
    emptyArrHttp (Tools.topDistributorUrl 10001515) = .body "[]" ∧
    emptyArrParse "[]" = some (.arr []) ∧
    get_distributor_performance emptyArrHttp emptyArrParse 10001515 "top" =
      .error () :=
  ⟨rfl, rfl, rfl⟩

/-- C6 amended: request and JSON decode errors propagate uncaught in both
operations; `get_customer_data` raises if and only if the GET or the parse
fails, while `get_distributor_performance` raises whenever the GET or the
parse fails (and may additionally raise on successfully parsed payloads,
e.g. an empty array). -/
theorem c6_customer_error_propagation (http : HttpEnv) (parse : ParseOracle)
    (id : Int) :
    (Tools.get_customer_data http parse id = .error () ↔
      http (Tools.topDistributorUrl id) = .requestError ∨
        ∃ b, http (Tools.topDistributorUrl id) = .body b ∧ parse b = none) ∧
    ∀ mode,
      (http (Tools.topDistributorUrl id) = .requestError ∨
        ∃ b, http (Tools.topDistributorUrl id) = .body b ∧ parse b = none) →
      get_distributor_performance http parse id mode = .error () := by
  constructor
  · cases hh : http (Tools.topDistributorUrl id) with
    | requestError =>
      unfold Tools.get_customer_data
      rw [hh]
      exact ⟨fun _ => Or.inl rfl, fun _ => rfl⟩
    | body b =>
      unfold Tools.get_customer_data
      rw [hh]
      dsimp only
      cases hp : parse b with
      | none =>
        exact ⟨fun _ => Or.inr ⟨b, rfl, hp⟩, fun _ => rfl⟩
      | some j =>
        constructor
        · intro hcontra
          exact Except.noConfusion hcontra
        · rintro (h | ⟨b', hb', hp'⟩)
          · exact FetchOutcome.noConfusion h
          · have hbb : b' = b := by
              have := FetchOutcome.body.inj hb'
              exact this.symm
            rw [hbb, hp] at hp'
            exact Option.noConfusion hp'
  · intro mode hfail
    unfold get_distributor_performance
    rcases hfail with h | ⟨b, hb, hp⟩
    · rw [h]
    · rw [hb]
      dsimp only
      rw [hp]

/-- C6 witness: with a failing transport, both operations raise. -/
theorem c6_witness :
    Tools.get_customer_data (fun _ => .requestError) (fun _ => none) 5 = .error () ∧
    get_distributor_performance (fun _ => .requestError) (fun _ => none) 5 "top" =
      .error () :=
  ⟨(c6_customer_error_propagation (fun _ => .requestError) (fun _ => none) 5).1.mpr
      (Or.inl rfl),
   (c6_customer_error_propagation (fun _ => .requestError) (fun _ => none) 5).2
      "top" (Or.inl rfl)⟩

/-- Helper: inserting into a list and then filtering by an exact key value
is the same as consing first — equal-key elements are never passed, so the
insertion is stable. -/
lemma filter_orderedInsert_key (k : Int) (x : Int × Json)
    (l : List (Int × Json)) :
    (List.orderedInsert keyLe x l).filter (fun z => decide (z.1 = k)) =
      ((x :: l).filter (fun z => decide (z.1 = k))) := by
  induction l with
  | nil => rfl
  | cons b t ih =>
    rw [List.orderedInsert]
    by_cases hr : keyLe x b
    · rw [if_pos hr]
    · rw [if_neg hr]
      by_cases hx : x.1 = k <;> by_cases hb : b.1 = k
      · exact absurd (le_of_eq (hx.trans hb.symm)) hr
      all_goals simp [List.filter_cons, ih, hx, hb]

/-- Helper: insertion sort by key does not change the subsequence of
elements carrying any fixed key value. -/
lemma filter_insertionSort_key (k : Int) (l : List (Int × Json)) :
    (List.insertionSort keyLe l).filter (fun z => decide (z.1 = k)) =
      l.filter (fun z => decide (z.1 = k)) := by
  induction l with
  | nil => rfl
  | cons b t ih =>
    rw [List.insertionSort, filter_orderedInsert_key]
    simp only [List.filter_cons, ih]

/-- Helper: a successful decoration pairs every element of the input with
its `TOTAL_SALES` key. -/
lemma decorate_mem {xs : List Json} {ps : List (Int × Json)}
    (h : decorate xs = some ps) {x : Json} (hx : x ∈ xs) :
    ∃ k, recKey x = some k ∧ (k, x) ∈ ps := by
  induction xs generalizing ps with
  | nil => cases hx
  | cons a t ih =>
    cases hk : recKey a <;> cases hd : decorate t <;>
      simp only [decorate, hk, hd] at h
    · exact Option.noConfusion h
    · exact Option.noConfusion h
    · exact Option.noConfusion h
    injection h with h
    subst h
    rcases List.mem_cons.mp hx with rfl | hxt
    · exact ⟨_, hk, List.mem_cons_self _ _⟩
    · obtain ⟨k', hk', hmem⟩ := ih hd hxt
      exact ⟨k', hk', List.mem_cons_of_mem _ hmem⟩

/-- Helper: every pair produced by a successful decoration carries the
`TOTAL_SALES` key of its record. -/
lemma decorate_inv {xs : List Json} {ps : List (Int × Json)}
    (h : decorate xs = some ps) :
    ∀ z ∈ ps, recKey z.2 = some z.1 := by
  induction xs generalizing ps with
  | nil =>
    simp only [decorate] at h
    injection h with h
    subst h
    intro z hz
    cases hz
  | cons a t ih =>
    cases hk : recKey a <;> cases hd : decorate t <;>
      simp only [decorate, hk, hd] at h
    · exact Option.noConfusion h
    · exact Option.noConfusion h
    · exact Option.noConfusion h
    injection h with h
    subst h
    intro z hz
    rcases List.mem_cons.mp hz with rfl | hzt
    · exact hk
    · exact ih hd z hzt

/-- Helper: dropping the keys of a successful decoration recovers the
input list. -/
lemma decorate_map_snd {xs : List Json} {ps : List (Int × Json)}
    (h : decorate xs = some ps) : ps.map Prod.snd = xs := by
  induction xs generalizing ps with
  | nil =>
    simp only [decorate] at h
    injection h with h
    subst h
    rfl
  | cons a t ih =>
    cases hk : recKey a <;> cases hd : decorate t <;>
      simp only [decorate, hk, hd] at h
    · exact Option.noConfusion h
    · exact Option.noConfusion h
    · exact Option.noConfusion h
    injection h with h
    subst h
    simp [ih hd]

/-- Helper: on a list of key/record pairs whose keys agree with `recKey`,
filtering records by key commutes with dropping the keys. -/
lemma filter_map_snd_of_inv (k : Int) (l : List (Int × Json))
    (hinv : ∀ z ∈ l, recKey z.2 = some z.1) :
    (l.map Prod.snd).filter (fun r => decide (recKey r = some k)) =
      (l.filter (fun z => decide (z.1 = k))).map Prod.snd := by
  induction l with
  | nil => rfl
  | cons a t ih =>
    have ha : recKey a.2 = some a.1 := hinv a (List.mem_cons_self _ _)
    have ht : ∀ z ∈ t, recKey z.2 = some z.1 :=
      fun z hz => hinv z (List.mem_cons_of_mem _ hz)
    by_cases hk : a.1 = k
    · simp [List.filter_cons, ha, hk, ih ht]
    · simp [List.filter_cons, ha, hk, ih ht]

/-- C10: the `TOTAL_SALES` sort is stable: whenever the sort succeeds, the
subsequence of records carrying any fixed `TOTAL_SALES` value is unchanged,
so records with equal keys keep their original relative order. -/
theorem c10_sort_by_total_sales_stable (xs ys : List Json)
    (h : sort_by_total_sales xs = some ys) (k : Int) :
    ys.filter (fun r => decide (recKey r = some k)) =
      xs.filter (fun r => decide (recKey r = some k)) := by
  unfold sort_by_total_sales at h
  cases hd : decorate xs with
  | none => rw [hd] at h; exact Option.noConfusion h
  | some ps =>
    rw [hd] at h
    injection h with h
    subst h
    have hinv := decorate_inv hd
    have hinv' : ∀ z ∈ List.insertionSort keyLe ps, recKey z.2 = some z.1 :=
      fun z hz => hinv z ((List.perm_insertionSort keyLe ps).mem_iff.mp hz)
    rw [filter_map_snd_of_inv k _ hinv', filter_insertionSort_key,
      ← filter_map_snd_of_inv k _ hinv, decorate_map_snd hd]

/-- C10 witness: in a payload with `TOTAL_SALES` keys 10, 50, 10, the two
key-10 records keep their original relative order after sorting. -/
theorem c10_witness :
    ([custRec10, .obj [("TOTAL_SALES", .num 10), ("CUSTOMER_NAME", .str "C")],
        custRec50].filter (fun r => decide (recKey r = some 10))) =
      ([custRec10, custRec50,
        .obj [("TOTAL_SALES", .num 10), ("CUSTOMER_NAME", .str "C")]].filter
          (fun r => decide (recKey r = some 10))) :=
  c10_sort_by_total_sales_stable
    [custRec10, custRec50, .obj [("TOTAL_SALES", .num 10), ("CUSTOMER_NAME", .str "C")]]
    [custRec10, .obj [("TOTAL_SALES", .num 10), ("CUSTOMER_NAME", .str "C")], custRec50]
    rfl 10

/-- C8: whenever the `TOTAL_SALES` sort succeeds on a non-empty list, the
first element of the result has the minimal `TOTAL_SALES` value. -/
theorem c8_sort_head_minimal (xs : List Json) (y : Json) (t : List Json)
    (ky kx : Int) (x : Json)
    (h : sort_by_total_sales xs = some (y :: t))
    (hy : recKey y = some ky) (hx : x ∈ xs) (hkx : recKey x = some kx) :
    ky ≤ kx := by
  unfold sort_by_total_sales at h
  cases hd : decorate xs with
  | none => rw [hd] at h; exact Option.noConfusion h
  | some ps =>
    rw [hd] at h
    injection h with h
    obtain ⟨k0, hk0, hmem⟩ := decorate_mem hd hx
    have hk0x : k0 = kx := Option.some.inj (hk0.symm.trans hkx)
    cases hs : List.insertionSort keyLe ps with
    | nil => rw [hs] at h; exact absurd h (by simp)
    | cons z zs =>
      rw [hs] at h
      have hz2 : z.2 = y := (List.cons.inj h).1
      have hsorted := List.sorted_insertionSort keyLe ps
      rw [hs] at hsorted
      have hzps : z ∈ ps :=
        (List.perm_insertionSort keyLe ps).mem_iff.mp
          (hs ▸ List.mem_cons_self z zs)
      have hzkey : recKey z.2 = some z.1 := decorate_inv hd z hzps
      have hky : z.1 = ky := by
        rw [hz2, hy] at hzkey
        exact (Option.some.inj hzkey).symm
      have hmem' : (k0, x) ∈ z :: zs := by
        rw [← hs]
        exact (List.perm_insertionSort keyLe ps).mem_iff.mpr hmem
      rcases List.mem_cons.mp hmem' with heq | htail
      · have : k0 = z.1 := congrArg Prod.fst heq
        rw [← hk0x, ← hky, ← this]
      · have hrel : keyLe z (k0, x) := List.rel_of_sorted_cons hsorted _ htail
        calc ky = z.1 := hky.symm
          _ ≤ k0 := hrel
          _ = kx := hk0x

/-- C8 witness: sorting the spec's simulated payload with `TOTAL_SALES`
values 50 and 10 puts the 10-valued record first, and its key 10 is minimal
against the key 50 of the other record. -/
theorem c8_witness : (10 : Int) ≤ 50 :=
  c8_sort_head_minimal [custRec50, custRec10] custRec10 [custRec50] 10 50
    custRec50 rfl rfl (List.mem_cons_self _ _) rfl
